import Mathlib

set_option allowUnsafeReducibility true

attribute [semireducible] Rat.add Rat.mul Rat.sub Rat.inv Rat.ofScientific

/-!
Formal model of the Signal-Prophet numeric core.

This file gives a shallow embedding, in exact rational arithmetic, of the
numeric signal engine of the repository:

- `Conv`: the CLI convolution module (`convolution.py`): the unit step `u`,
  the rectangular Dirac approximation `d` together with the process-wide
  `DELTA_WIDTH` slot (modelled as explicitly threaded state), the scoped
  support estimator `_estimate_support_of`, interval expansion `_expand`,
  and the automatic range planner `pick_ranges_auto`.
- `Sym`: the API compute module (`api/core/symbolic.py`): the SymPy-backed
  step mapping of `parse_signal`, the API support estimators, and the
  error-handling skeleton and grids of `compute_convolution` (continuous
  and discrete branches).
- `Roc`: the transfer-function surface generator
  (`api/core/roc_3d.py::calculate_roc_surface`).
- `Pre`: the implicit-multiplication rewriter
  (`convolution.py::preprocess_expr`), with Python `re.sub` left-to-right
  scanning semantics compiled rule by rule.

Modelling conventions:
- Python floats and float literals are modelled as exact rationals
  (`1e-10` becomes `1/10^10`, `0.12` becomes `12/100`, and so on);
  all grid arithmetic is exact.
- Signal evaluation that may raise is modelled in `Except Unit`; a numpy
  vectorized call is `evalVec`, which fails iff evaluation fails at some
  grid point, exactly as a numpy ufunc call raises if any element raises.
- Transcendental library calls that produce irrational values
  (`np.abs` on complex data, `cos`, `sin`, `np.pi`) are kept as explicit
  function/constant parameters of the surface generator; every theorem
  below either holds for all instantiations or instantiates them on
  inputs where the true value is rational.
-/

/-- Exact model of `np.linspace(lo, hi, n)`: `n` evenly spaced samples with
both endpoints included (`[lo]` for `n = 1`, `[]` for `n = 0`). -/
def linspace (lo hi : ℚ) (n : ℕ) : List ℚ :=
  if n = 0 then []
  else if n = 1 then [lo]
  else (List.range n).map (fun (i : ℕ) => lo + (hi - lo) * (i : ℚ) / ((n : ℚ) - 1))

/-- Exact model of `np.arange(lo, hi)` on integers: `lo, lo+1, ..., hi-1`. -/
def arangeZ (lo hi : ℤ) : List ℤ :=
  (List.range (hi - lo).toNat).map (fun (i : ℕ) => lo + (i : ℤ))

/-- Exact model of `np.trapezoid(y, x)` (alias `np.trapz`):
the sum of `(x[i+1] - x[i]) * (y[i] + y[i+1]) / 2`. -/
def trapz : List ℚ → List ℚ → ℚ
  | y1 :: y2 :: ys, x1 :: x2 :: xs =>
      (x2 - x1) * (y1 + y2) / 2 + trapz (y2 :: ys) (x2 :: xs)
  | _, _ => 0

/-- Vectorized evaluation of a pointwise-fallible function on a grid (a
numpy ufunc call): the first raising element aborts the whole call. -/
def evalVec {α β : Type} (fn : α → Except Unit β) : List α → Except Unit (List β)
  | [] => .ok []
  | a :: as =>
      match fn a with
      | .error e => .error e
      | .ok b =>
          match evalVec fn as with
          | .error e => .error e
          | .ok bs => .ok (b :: bs)

/-- Exact model of `np.where(np.abs(vals) > tol)[0]`: the ascending list
of indices (counted from `i`) of the samples whose magnitude exceeds the
tolerance. -/
def whereGt (tol : ℚ) : List ℚ → ℕ → List ℕ
  | [], _ => []
  | v :: vs, i =>
      if tol < |v| then i :: whereGt tol vs (i + 1) else whereGt tol vs (i + 1)

namespace Conv

/-- Unit step from `convolution.py::u`: start from zeros, set `1` where
`t > 0`, then set `1` where `t == 0`. -/
def u (t : ℚ) : ℚ :=
  if t = 0 then 1 else if 0 < t then 1 else 0

/-- Value of the Dirac rectangle at `t` for a configured width `w`:
`(np.abs(t) <= 0.5*w).astype(float) / w`. -/
def dValue (w t : ℚ) : ℚ :=
  (if |t| ≤ 1/2 * w then (1 : ℚ) else 0) / w

/-- Model of `convolution.py::d`: the global `DELTA_WIDTH` is passed
explicitly; calling `d` with an unconfigured width raises
(`RuntimeError`), modelled as `Except.error`. -/
def d (width : Option ℚ) (t : ℚ) : Except Unit ℚ :=
  match width with
  | none => .error ()
  | some w => .ok (dValue w t)

/-- Model of `convolution.py::configure_delta_from_grid`:
`DELTA_WIDTH = float(abs(tau[1] - tau[0]))`. -/
def configure_delta_from_grid (tau : List ℚ) : ℚ :=
  |tau.getD 1 0 - tau.getD 0 0|

/-- Model of `convolution.py::_estimate_support_of`.  The process-wide
`DELTA_WIDTH` is threaded explicitly: the function receives the width
`w0` active on entry, sets the temporary scan width, evaluates `fn` on
the scan grid (the callable sees the current width and may raise), and
the `try/finally` restores `w0` on both the normal and the raising exit
path, re-raising in the latter case.  The returned pair is
(result-or-exception, final `DELTA_WIDTH`). -/
def estimate_support_of (fn : Option ℚ → List ℚ → Except Unit (List ℚ))
    (w0 : Option ℚ) (lo hi : ℚ) (N : ℕ) (tol temp_delta : ℚ) :
    Except Unit (Option (ℚ × ℚ)) × Option ℚ :=
  let w1 : Option ℚ := some temp_delta
  let grid := linspace lo hi N
  match fn w1 grid with
  | .error e =>
      -- finally: DELTA_WIDTH = old; the exception propagates
      (.error e, w0)
  | .ok vals =>
      -- finally: DELTA_WIDTH = old; then threshold the samples
      let w2 := w0
      let idx := whereGt tol vals 0
      match idx.head?, idx.getLast? with
      | some i, some j => (.ok (some (grid.getD i 0, grid.getD j 0)), w2)
      | _, _ => (.ok none, w2)

/-- Model of `convolution.py::_expand`: pad `[a, b]` by
`max(min_pad, frac * max(1e-9, b - a))` on both ends. -/
def expand (a b frac min_pad : ℚ) : ℚ × ℚ :=
  let span := max (1/1000000000) (b - a)
  let pad := max min_pad (frac * span)
  (a - pad, b + pad)

/-- Pure planning part of `convolution.py::pick_ranges_auto`, taking the
two estimated supports: if both are `None` return the fixed fallback
`(-2, 6, -2, 6)`; otherwise a missing support becomes `(0, 0)`, the
τ-window is the expanded union and the t-window the expanded Minkowski
sum.  Result order is `(t_min, t_max, tau_min, tau_max)` as in source. -/
def pick_ranges_plan (sx sh : Option (ℚ × ℚ)) : ℚ × ℚ × ℚ × ℚ :=
  match sx, sh with
  | none, none => (-2, 6, -2, 6)
  | _, _ =>
      let xb := sx.getD (0, 0)
      let hb := sh.getD (0, 0)
      let tauw := expand (min xb.1 hb.1) (max xb.2 hb.2) (12/100) (1/2)
      let tw := expand (xb.1 + hb.1) (xb.2 + hb.2) (12/100) (1/2)
      (tw.1, tw.2, tauw.1, tauw.2)

/-- Model of `convolution.py::pick_ranges_auto`: estimate both supports
with the scoped scan (default scan window `±20`, `N = 4000`,
`tol = 1e-6`, temporary width `1e-2`) and plan the ranges.  A raising
scan propagates; the ambient width `w0` is restored either way. -/
def pick_ranges_auto (x_fn h_fn : Option ℚ → List ℚ → Except Unit (List ℚ))
    (w0 : Option ℚ) : Except Unit (ℚ × ℚ × ℚ × ℚ) × Option ℚ :=
  match estimate_support_of x_fn w0 (-20) 20 4000 (1/1000000) (1/100) with
  | (.error e, w1) => (.error e, w1)
  | (.ok sx, w1) =>
      match estimate_support_of h_fn w1 (-20) 20 4000 (1/1000000) (1/100) with
      | (.error e, w2) => (.error e, w2)
      | (.ok sh, w2) => (.ok (pick_ranges_plan sx sh), w2)

end Conv

namespace Sym

/-- SymPy `Heaviside` with its default half-value convention
`Heaviside(0) = 1/2`; this is the object `parse_signal` maps the user
primitive `u` to (both by the `u( -> Heaviside(` text replacement and by
the `local_dict` alias `u: Heaviside`). -/
def Heaviside (x : ℚ) : ℚ :=
  if x < 0 then 0 else if x = 0 then 1/2 else 1

/-- Model of `symbolic.py::estimate_support`: scan `fn` on
`np.linspace(lo, hi, N)`; the whole body sits in `try/except` and any
evaluation failure yields `None`, as does an all-below-tolerance scan. -/
def estimate_support (fn : ℚ → Except Unit ℚ) (lo hi : ℚ) (N : ℕ) (tol : ℚ) :
    Option (ℚ × ℚ) :=
  let grid := linspace lo hi N
  match evalVec fn grid with
  | .error _ => none
  | .ok vals =>
      let idx := whereGt tol vals 0
      match idx.head?, idx.getLast? with
      | some i, some j => some (grid.getD i 0, grid.getD j 0)
      | _, _ => none

/-- Model of `symbolic.py::estimate_support_discrete`: integer scan grid
`np.arange(lo, hi + 1)`, fixed tolerance `1e-3`, same broad `except`. -/
def estimate_support_discrete (fn : ℤ → Except Unit ℚ) (lo hi : ℤ) :
    Option (ℤ × ℤ) :=
  let grid := arangeZ lo (hi + 1)
  match evalVec fn grid with
  | .error _ => none
  | .ok vals =>
      let idx := whereGt (1/1000) vals 0
      match idx.head?, idx.getLast? with
      | some i, some j => some (grid.getD i 0, grid.getD j 0)
      | _, _ => none

/-- Inline range selection of `symbolic.py::compute_convolution`
(continuous branch): missing supports default to `(-2, 2)`, the τ-window
is the union padded by a flat `2`, the t-window the Minkowski sum padded
by a flat `2`.  Result order `(t_min, t_max, tau_min, tau_max)`. -/
def conv_ranges_cont (sx sh : Option (ℚ × ℚ)) : ℚ × ℚ × ℚ × ℚ :=
  let xb := sx.getD (-2, 2)
  let hb := sh.getD (-2, 2)
  ((xb.1 + hb.1) - 2, (xb.2 + hb.2) + 2, min xb.1 hb.1 - 2, max xb.2 hb.2 + 2)

/-- One animation frame of `compute_convolution`. -/
structure Frame where
  t : ℚ
  h_shifted : List ℚ
  current_y : ℚ
  deriving DecidableEq, Repr

/-- Return payload of `compute_convolution`. -/
structure ConvResult where
  t : List ℚ
  y : List ℚ
  tau : List ℚ
  x_tau : List ℚ
  frames : List Frame
  deriving DecidableEq, Repr

/-- Domain grid `np.linspace(t_min, t_max, 60)` that the continuous branch
of `compute_convolution` builds for the two parsed signals. -/
def conv_t_grid (x_fn h_fn : ℚ → Except Unit ℚ) : List ℚ :=
  let sx := estimate_support x_fn (-20) 20 1000 (1/1000)
  let sh := estimate_support h_fn (-20) 20 1000 (1/1000)
  let rg := conv_ranges_cont sx sh
  linspace rg.1 rg.2.1 60

/-- Integration grid `np.linspace(tau_min, tau_max, 200)` that the
continuous branch of `compute_convolution` builds for the two parsed
signals. -/
def conv_tau_grid (x_fn h_fn : ℚ → Except Unit ℚ) : List ℚ :=
  let sx := estimate_support x_fn (-20) 20 1000 (1/1000)
  let sh := estimate_support h_fn (-20) 20 1000 (1/1000)
  let rg := conv_ranges_cont sx sh
  linspace rg.2.2.1 rg.2.2.2 200

/-- Body of the continuous branch of `symbolic.py::compute_convolution`
after successful parsing: estimate supports (the estimators never raise),
build the grids, evaluate `X(τ)` vectorized, then for each domain point
evaluate the shifted kernel, integrate with `np.trapz`, and record an
animation frame.  Any evaluation failure aborts the whole body with the
exception that the caller's broad handler will see. -/
def conv_cont_pipeline (x_fn h_fn : ℚ → Except Unit ℚ) : Except Unit ConvResult := do
  let t_vals := conv_t_grid x_fn h_fn
  let tau_vals := conv_tau_grid x_fn h_fn
  let X_tau ← evalVec x_fn tau_vals
  let frames ← evalVec (fun ti => do
    let H_shifted ← evalVec h_fn (tau_vals.map (fun tv => ti - tv))
    let val := trapz (List.zipWith (· * ·) X_tau H_shifted) tau_vals
    pure (Frame.mk ti H_shifted val)) t_vals
  pure (ConvResult.mk t_vals (frames.map Frame.current_y) tau_vals X_tau frames)

/-- Continuous branch of `symbolic.py::compute_convolution`: parsing of
either input may fail (`parse_signal` raises `ValueError`), and the whole
body — parsing included — sits inside one `try/except` whose handler
prints and returns `None`. -/
def compute_convolution_cont (px ph : Except Unit (ℚ → Except Unit ℚ)) :
    Option ConvResult :=
  match px with
  | .error _ => none
  | .ok x_fn =>
      match ph with
      | .error _ => none
      | .ok h_fn =>
          match conv_cont_pipeline x_fn h_fn with
          | .ok r => some r
          | .error _ => none

/-- Inline range selection of the discrete branch of
`compute_convolution`: missing supports default to `(-5, 5)`, flat pad
`5` on each side; order `(n_min, n_max, k_min, k_max)`. -/
def conv_ranges_disc (sx sh : Option (ℤ × ℤ)) : ℤ × ℤ × ℤ × ℤ :=
  let xb := sx.getD (-5, 5)
  let hb := sh.getD (-5, 5)
  ((xb.1 + hb.1) - 5, (xb.2 + hb.2) + 5, min xb.1 hb.1 - 5, max xb.2 hb.2 + 5)

/-- Body of the discrete branch of `symbolic.py::compute_convolution`
after successful parsing: integer grids `np.arange(n_min, n_max + 1)` and
`np.arange(k_min, k_max + 1)`, exact finite sum instead of quadrature. -/
def conv_disc_pipeline (x_fn h_fn : ℤ → Except Unit ℚ) : Except Unit ConvResult := do
  let sx := estimate_support_discrete x_fn (-20) 20
  let sh := estimate_support_discrete h_fn (-20) 20
  let rg := conv_ranges_disc sx sh
  let n_vals := arangeZ rg.1 (rg.2.1 + 1)
  let k_vals := arangeZ rg.2.2.1 (rg.2.2.2 + 1)
  let X_k ← evalVec x_fn k_vals
  let frames ← evalVec (fun (ni : ℤ) => do
    let H_shifted ← evalVec h_fn (k_vals.map (fun kv => ni - kv))
    let val := (List.zipWith (· * ·) X_k H_shifted).sum
    pure (Frame.mk (ni : ℚ) H_shifted val)) n_vals
  pure (ConvResult.mk (n_vals.map (fun z => (z : ℚ)))
    (frames.map Frame.current_y) (k_vals.map (fun z => (z : ℚ))) X_k frames)

/-- Discrete branch of `symbolic.py::compute_convolution`, inside the
same single broad `try/except` returning `None`. -/
def compute_convolution_disc (px ph : Except Unit (ℤ → Except Unit ℚ)) :
    Option ConvResult :=
  match px with
  | .error _ => none
  | .ok x_fn =>
      match ph with
      | .error _ => none
      | .ok h_fn =>
          match conv_disc_pipeline x_fn h_fn with
          | .ok r => some r
          | .error _ => none

end Sym

namespace Roc

/-- Complex number with exact rational components, the value type of the
numpy complex mesh in `roc_3d.py`. -/
structure Cq where
  re : ℚ
  im : ℚ
  deriving DecidableEq, Repr

/-- Complex addition. -/
def cadd (a b : Cq) : Cq := ⟨a.re + b.re, a.im + b.im⟩

/-- Complex subtraction. -/
def csub (a b : Cq) : Cq := ⟨a.re - b.re, a.im - b.im⟩

/-- Complex multiplication. -/
def cmul (a b : Cq) : Cq :=
  ⟨a.re * b.re - a.im * b.im, a.re * b.im + a.im * b.re⟩

/-- Exact complex division `a / b = a * conj b / |b|^2` (numpy complex
division in exact arithmetic; `roc_3d.py` guards the denominator with an
additive epsilon before dividing). -/
def cdiv (a b : Cq) : Cq :=
  let n := b.re * b.re + b.im * b.im
  ⟨(a.re * b.re + a.im * b.im) / n, (a.im * b.re - a.re * b.im) / n⟩

/-- Plot domain selector of `calculate_roc_surface`. -/
inductive Domain where
  | laplace
  | zdom
  deriving DecidableEq, Repr

/-- ROC selector of `calculate_roc_surface`.  (Any other string would
leave the mask all-true in the source; only these two values are
specified and exercised.) -/
inductive RocType where
  | causal
  | anticausal
  deriving DecidableEq, Repr

/-- Python `max(list)` for a nonempty list (the source only calls it on a
nonempty pole list). -/
def listMax : List ℚ → ℚ
  | [] => 0
  | x :: xs => xs.foldl max x

/-- Python `min(list)` for a nonempty list. -/
def listMin : List ℚ → ℚ
  | [] => 0
  | x :: xs => xs.foldl min x

/-- First mesh axis of `calculate_roc_surface`: `x_vals` (σ) for Laplace,
`r_vals` for the z-domain.  `points` is the `points` argument (default
`50` at the source call sites), `pr` the `plot_range`. -/
def rocXVals (dom : Domain) (pr : ℚ) (points : ℕ) : List ℚ :=
  match dom with
  | .laplace => linspace (-pr) pr points
  | .zdom => linspace 0 pr points

/-- Second mesh axis: `y_vals` (ω) for Laplace, `w_vals` for the
z-domain; `piQ` models the float constant `np.pi`. -/
def rocYVals (dom : Domain) (piQ pr : ℚ) (points : ℕ) : List ℚ :=
  match dom with
  | .laplace => linspace (-pr) pr points
  | .zdom => linspace (-piQ) piQ points

/-- Mesh evaluation point for first-axis value `x` and second-axis value
`y`: `S = σ + jω` (Laplace) or `S = r·e^{jω}` (z-domain), with the
transcendental `cos`/`sin` of the library call supplied as parameters. -/
def rocS (dom : Domain) (cosF sinF : ℚ → ℚ) (x y : ℚ) : Cq :=
  match dom with
  | .laplace => ⟨x, y⟩
  | .zdom => ⟨x * cosF y, x * sinF y⟩

/-- Product loop of `calculate_roc_surface`: `∏ (S - root)`, starting
from `np.ones_like(S)`. -/
def prodSub (S : Cq) (roots : List Cq) : Cq :=
  roots.foldl (fun acc r => cmul acc (csub S r)) ⟨1, 0⟩

/-- Cell value `H = gain * numerator / (denominator + epsilon)` with
`epsilon = 1e-10` added to the real part of the denominator. -/
def rocH (dom : Domain) (cosF sinF : ℚ → ℚ) (poles zeros : List Cq)
    (gain : ℚ) (x y : ℚ) : Cq :=
  let S := rocS dom cosF sinF x y
  let numerator := prodSub S zeros
  let denominator := prodSub S poles
  cmul ⟨gain, 0⟩ (cdiv numerator (cadd denominator ⟨1/10000000000, 0⟩))

/-- Capped cell magnitude: `np.minimum(np.abs(H), 10.0)` with
`MAX_HEIGHT = 10.0`; `absF` models `np.abs` on complex data. -/
def rocHeight (absF : Cq → ℚ) (dom : Domain) (cosF sinF : ℚ → ℚ)
    (poles zeros : List Cq) (gain : ℚ) (x y : ℚ) : ℚ :=
  min (absF (rocH dom cosF sinF poles zeros gain x y)) 10

/-- ROC mask of `calculate_roc_surface` for a cell whose first-axis
coordinate is `x` (the mask compares the `X` mesh — σ in Laplace, r in
the z-domain — against the pole statistic; with no poles every cell is
kept). -/
def rocMask (absF : Cq → ℚ) (dom : Domain) (roc : RocType) (poles : List Cq)
    (x : ℚ) : Bool :=
  match dom with
  | .laplace =>
      match poles with
      | [] => true
      | _ =>
          match roc with
          | .causal => decide (listMax (poles.map Cq.re) < x)
          | .anticausal => decide (x < listMin (poles.map Cq.re))
  | .zdom =>
      match poles with
      | [] => true
      | _ =>
          match roc with
          | .causal => decide (listMax (poles.map absF) < x)
          | .anticausal => decide (x < listMin (poles.map absF))

/-- Return payload of `calculate_roc_surface`: axis lists and the z
matrix with one row per `y` value; a masked cell is the explicit `none`
marker (`np.nan` from `np.where` is rewritten to `None` before returning,
so no raw NaN token ever reaches the payload). -/
structure RocSurface where
  x : List ℚ
  y : List ℚ
  z : List (List (Option ℚ))
  deriving DecidableEq, Repr

/-- Model of `roc_3d.py::calculate_roc_surface`.  Parameters `absF`,
`cosF`, `sinF`, `piQ` stand for the library primitives `np.abs` (on
complex data), `cos`, `sin` and `np.pi`; all remaining arguments mirror
the source signature. -/
def calculate_roc_surface (absF : Cq → ℚ) (cosF sinF : ℚ → ℚ) (piQ : ℚ)
    (poles zeros : List Cq) (gain : ℚ) (dom : Domain) (roc : RocType)
    (points : ℕ) (pr : ℚ) : RocSurface :=
  let xs := rocXVals dom pr points
  let ys := rocYVals dom piQ pr points
  let z := (List.range ys.length).map (fun i =>
    (List.range xs.length).map (fun j =>
      if rocMask absF dom roc poles (xs.getD j 0) then
        some (rocHeight absF dom cosF sinF poles zeros gain
          (xs.getD j 0) (ys.getD i 0))
      else none))
  RocSurface.mk xs ys z

/-- Modelled from the spec: the adaptive per-axis resolution
`clamp(range * 2, 50, 200)` that §4.5 prescribes for the surface
generator (the generator in `roc_3d.py` has no such computation; this
definition exists only to compare the spec formula with the code). -/
def spec_adaptive_points (range : ℚ) : ℚ :=
  max 50 (min (range * 2) 200)

end Roc

namespace Pre

/-- Python regex class `[A-Za-z0-9_.]`, the negative lookbehind class of
the signed-number rule of `preprocess_expr`. -/
def isR1Block (c : Char) : Bool :=
  c.isAlpha || c.isDigit || c = '_' || c = '.'

/-- Python regex class `\w` (ASCII). -/
def isWordC (c : Char) : Bool :=
  c.isAlpha || c.isDigit || c = '_'

/-- Python regex class `\s` (ASCII). -/
def isSpaceC (c : Char) : Bool :=
  c = ' ' || c = '\t' || c = '\n' || c = '\r' ||
    c = Char.ofNat 11 || c = Char.ofNat 12

/-- Word test on an optional character; a `\b` boundary next to a word
character holds exactly when this is false on the neighbour. -/
def isWordO : Option Char → Bool
  | none => false
  | some c => isWordC c

/-- Whether `pat` is a prefix of `l` (both as character lists). -/
def startsWithL : List Char → List Char → Bool
  | _, [] => true
  | [], _ => false
  | c :: cs, p :: ps => (c = p) && startsWithL cs ps

/-- Greedy match of `\d+(?:\.\d+)?` at the head of `l`, returning the
matched characters and the remainder.  (As the fractional part consists
of word characters, a shorter fractional match can never help a later
boundary, so the greedy parse is exact.) -/
def numToken (l : List Char) : Option (List Char × List Char) :=
  let ds := l.takeWhile Char.isDigit
  let r1 := l.drop ds.length
  if ds.isEmpty then none
  else
    match r1 with
    | '.' :: r2 =>
        let fs := r2.takeWhile Char.isDigit
        if fs.isEmpty then some (ds, r1)
        else some (ds ++ '.' :: fs, r2.drop fs.length)
    | _ => some (ds, r1)

/-- Left-to-right non-overlapping `re.sub` scan: at each position try the
matcher `m` with the previous original character `p`; on a match, emit
the replacement and continue after the consumed characters (a matcher
returns the replacement and the consumed count, which is positive by
construction); otherwise copy one character.  This is Python's scanning
semantics specialised to the fixed patterns below, each of which always
consumes at least one character (the zero-width spacing rule is folded
into its matcher by also consuming the copied character). -/
def scanSubGo (m : Option Char → List Char → Option (List Char × ℕ)) :
    ℕ → Option Char → List Char → List Char
  | 0, _, l => l
  | _ + 1, _, [] => []
  | fuel + 1, p, c :: rest =>
      match m p (c :: rest) with
      | some (repl, n) =>
          if 1 ≤ n then
            repl ++ scanSubGo m fuel (some (((c :: rest).take n).getLastD c))
              ((c :: rest).drop n)
          else c :: scanSubGo m fuel (some c) rest
      | none => c :: scanSubGo m fuel (some c) rest

/-- Entry point of the scan: each step consumes at least one character,
so the length of the text bounds the number of steps and the fuel never
runs out. -/
def scanSub (m : Option Char → List Char → Option (List Char × ℕ))
    (p : Option Char) (l : List Char) : List Char :=
  scanSubGo m l.length p l

/-- Matcher for rule 1 of `preprocess_expr`:
`(?<![A-Za-z0-9_\.])([+-]?\d+(?:\.\d+)?)(\s*)t\b -> \1*\2t`
(signed number directly before the free variable). -/
def m1 (p : Option Char) (l : List Char) : Option (List Char × ℕ) :=
  let blocked := match p with | some c => isR1Block c | none => false
  if blocked then none
  else
    let (sign, l1) :=
      match l with
      | '+' :: r => ([('+' : Char)], r)
      | '-' :: r => ([('-' : Char)], r)
      | _ => (([] : List Char), l)
    match numToken l1 with
    | none => none
    | some (num, r2) =>
        let sp := r2.takeWhile isSpaceC
        let r3 := r2.drop sp.length
        match r3 with
        | 't' :: r4 =>
            if isWordO r4.head? then none
            else some (sign ++ num ++ '*' :: sp ++ ['t'],
              sign.length + num.length + sp.length + 1)
        | _ => none

/-- Matcher for rule 2: `\)(\s*)t\b -> )*\1t`. -/
def m2 (_p : Option Char) (l : List Char) : Option (List Char × ℕ) :=
  match l with
  | ')' :: r =>
      let sp := r.takeWhile isSpaceC
      match r.drop sp.length with
      | 't' :: r3 =>
          if isWordO r3.head? then none
          else some (')' :: '*' :: sp ++ ['t'], 1 + sp.length + 1)
      | _ => none
  | _ => none

/-- Matcher for rule 3: `\bt(\s*)\( -> t*\1(`. -/
def m3 (p : Option Char) (l : List Char) : Option (List Char × ℕ) :=
  if isWordO p then none
  else
    match l with
    | 't' :: r =>
        let sp := r.takeWhile isSpaceC
        match r.drop sp.length with
        | '(' :: _ => some ('t' :: '*' :: sp ++ ['('], 1 + sp.length + 1)
        | _ => none
    | _ => none

/-- Matcher for rule 4: `\bt(\s*)(\d+(?:\.\d+)?)\b -> t*\1\2`; if the
greedy fractional part breaks the trailing `\b`, the regex engine
backtracks to the digits-only number, after which the boundary holds at
the following dot. -/
def m4 (p : Option Char) (l : List Char) : Option (List Char × ℕ) :=
  if isWordO p then none
  else
    match l with
    | 't' :: r =>
        let sp := r.takeWhile isSpaceC
        let r2 := r.drop sp.length
        let ds := r2.takeWhile Char.isDigit
        if ds.isEmpty then none
        else
          let r3 := r2.drop ds.length
          match r3 with
          | '.' :: r4 =>
              let fs := r4.takeWhile Char.isDigit
              if fs.isEmpty then
                some ('t' :: '*' :: sp ++ ds, 1 + sp.length + ds.length)
              else
                let r5 := r4.drop fs.length
                if isWordO r5.head? then
                  some ('t' :: '*' :: sp ++ ds, 1 + sp.length + ds.length)
                else
                  some ('t' :: '*' :: sp ++ ds ++ '.' :: fs,
                    1 + sp.length + ds.length + 1 + fs.length)
          | _ =>
              if isWordO r3.head? then none
              else some ('t' :: '*' :: sp ++ ds, 1 + sp.length + ds.length)
    | _ => none

/-- The primitive-name alternation of rule 5 (`u|d|exp|sin|cos|tan|
arctan|log|sqrt|abs|sign|pi`). -/
def funcNames : List (List Char) :=
  (["u", "d", "exp", "sin", "cos", "tan", "arctan", "log",
    "sqrt", "abs", "sign", "pi"]).map String.toList

/-- The lookahead `(?=(?:u|d|...|pi)\b)` at the head of `l`. -/
def lookName (l : List Char) : Bool :=
  funcNames.any (fun nm => startsWithL l nm && !isWordO (l.drop nm.length).head?)

/-- Matcher for rule 5: `(?<=[0-9\)])\s*(?=(?:u|d|...|pi)\b) -> *`.
When the whitespace run is empty the Python match is zero-width: the
engine inserts the replacement and copies the current character, resuming
at the next position; the matcher mirrors that by consuming the copied
character. -/
def m5 (p : Option Char) (l : List Char) : Option (List Char × ℕ) :=
  let okPrev := match p with | some c => c.isDigit || c = ')' | none => false
  if !okPrev then none
  else
    let sp := l.takeWhile isSpaceC
    let r := l.drop sp.length
    if !lookName r then none
    else
      if sp.isEmpty then
        match l with
        | c :: _ => some (['*', c], 1)
        | [] => none
      else some (['*'], sp.length)

/-- Matcher for rule 6: `\)\s*\( -> )*(`. -/
def m6 (_p : Option Char) (l : List Char) : Option (List Char × ℕ) :=
  match l with
  | ')' :: r =>
      let sp := r.takeWhile isSpaceC
      match r.drop sp.length with
      | '(' :: _ => some ([')', '*', '('], 1 + sp.length + 1)
      | _ => none
  | _ => none

/-- The `'^' -> '**'` normalisation. -/
def caretToPow : List Char → List Char
  | [] => []
  | '^' :: r => '*' :: '*' :: caretToPow r
  | c :: r => c :: caretToPow r

/-- Python `str.strip()` on the character list. -/
def stripL (l : List Char) : List Char :=
  ((l.dropWhile isSpaceC).reverse.dropWhile isSpaceC).reverse

/-- Whether the text contains the forbidden substring `np.`. -/
def hasNp : List Char → Bool
  | 'n' :: 'p' :: '.' :: _ => true
  | _ :: r => hasNp r
  | [] => false

/-- Model of `convolution.py::preprocess_expr`: reject `np.`, rewrite the
caret, then apply the six `re.sub` rules in source order. -/
def preprocess_expr (s : String) : Except Unit String :=
  if hasNp s.toList then .error ()
  else
    let s0 := caretToPow (stripL s.toList)
    let s1 := scanSub m1 none s0
    let s2 := scanSub m2 none s1
    let s3 := scanSub m3 none s2
    let s4 := scanSub m4 none s3
    let s5 := scanSub m5 none s4
    let s6 := scanSub m6 none s5
    .ok (String.mk s6)

end Pre

/-- Evenly spaced grid `a, a+h, ..., a+(n-1)h` (the generic form of every
`np.linspace` output; `linspace lo hi n` is `arithGrid lo ((hi-lo)/(n-1)) n`
in value). -/
def arithGrid (a h : ℚ) (n : ℕ) : List ℚ :=
  (List.range n).map (fun (i : ℕ) => a + (i : ℚ) * h)

namespace Sym

/-- Concrete signal whose evaluation fails at exactly one rational point,
`-4` (the head of the default τ-grid), and returns `0` everywhere else. -/
def cex_x : ℚ → Except Unit ℚ :=
  fun q => if q = -4 then .error () else .ok 0

/-- Concrete signal that always evaluates to `0`. -/
def cex_h : ℚ → Except Unit ℚ :=
  fun _ => .ok 0

/-- Boolean test used to count the failing grid points of `cex_x`. -/
def evalFails (fn : ℚ → Except Unit ℚ) (q : ℚ) : Bool :=
  match fn q with
  | .error _ => true
  | .ok _ => false

end Sym

namespace Roc

/-- Instantiation of the `np.abs` parameter that is exact on the real
axis: the true complex magnitude of every `Cq` with vanishing imaginary
part (the only values the counterexample below evaluates it on). -/
def absReal (c : Cq) : ℚ :=
  if c.im = 0 then |c.re| else 0

/-- Cell `(i, j)` of the returned z matrix (row `i` corresponds to the
`i`-th `y` value, column `j` to the `j`-th `x` value). -/
def surfEntry (absF : Cq → ℚ) (cosF sinF : ℚ → ℚ) (piQ : ℚ)
    (poles zeros : List Cq) (gain : ℚ) (dom : Domain) (roc : RocType)
    (points : ℕ) (pr : ℚ) (i j : ℕ) : Option ℚ :=
  (((calculate_roc_surface absF cosF sinF piQ poles zeros gain dom roc
      points pr).z.getD i []).getD j none)

end Roc

namespace Pre

/-- Representative inputs of the grammar of §4.1 (each of the five
implicit-multiplication contexts, the caret rule, and compound forms). -/
def sampleExprs : List String :=
  ["3t", "-2t", ")t", "t(", "t2", "2d(t+1)", ")u(t)", "2pi",
   "(t+1)(u(t)-u(t-1))", "u(t)-u(t-2)", "2^t", "exp(-2t)u(t)", "2 pi",
   "2.5t", "12t", "sin(t)cos(t)", "3t+2*sin(2pi*t)", "0.5d(t)", "t^2",
   "(t)(t)"]

/-- Whether rewriting `s` succeeds and rewriting the result again
reproduces it exactly. -/
def idemCheck (s : String) : Bool :=
  match preprocess_expr s with
  | .error _ => false
  | .ok r =>
      match preprocess_expr r with
      | .error _ => false
      | .ok r2 => r2 = r

end Pre

/-! ## General lemmas about the numeric primitives -/

theorem linspace_length (lo hi : ℚ) (n : ℕ) : (linspace lo hi n).length = n := by
  unfold linspace
  by_cases h0 : n = 0
  · simp [h0]
  · by_cases h1 : n = 1
    · simp [h0, h1]
    · simp [h0, h1]

theorem linspace_two (lo hi : ℚ) : linspace lo hi 2 = [lo, hi] := by
  unfold linspace
  norm_num [List.range_succ]

theorem evalVec_ok_forall {α β : Type} (fn : α → Except Unit β) :
    ∀ {l : List α} {v : List β}, evalVec fn l = .ok v →
      ∀ q ∈ l, ∃ y, fn q = .ok y := by
  intro l
  induction l with
  | nil =>
      intro v _ q hq
      exact absurd hq (List.not_mem_nil q)
  | cons a as ih =>
      intro v hv q hq
      unfold evalVec at hv
      rcases ha : fn a with e | b
      · rw [ha] at hv
        exact absurd hv (by simp)
      · rw [ha] at hv
        rcases hm : evalVec fn as with e | bs
        · rw [hm] at hv
          exact absurd hv (by simp)
        · rcases List.mem_cons.mp hq with rfl | hq2
          · exact ⟨b, ha⟩
          · exact ih hm q hq2

theorem evalVec_const_ok {α β : Type} (c : β) (l : List α) :
    evalVec (fun _ => Except.ok c) l = .ok (l.map (fun _ => c)) := by
  induction l with
  | nil => rfl
  | cons a as ih => simp [evalVec, ih]

theorem whereGt_map_const_zero (tol : ℚ) (htol : 0 ≤ tol) {α : Type}
    (l : List α) : ∀ i : ℕ, whereGt tol (l.map (fun _ => 0)) i = [] := by
  induction l with
  | nil => intro i; rfl
  | cons a as ih =>
      intro i
      simp only [List.map_cons, whereGt, abs_zero, not_lt.mpr htol, if_false,
        if_neg (not_lt.mpr htol)]
      exact ih (i + 1)

theorem evalVec_const_error {α β : Type} (l : List α) (hl : l ≠ []) :
    evalVec (fun _ => (Except.error () : Except Unit β)) l = .error () := by
  cases l with
  | nil => exact absurd rfl hl
  | cons a as => rfl

theorem conv_tau_grid_length (x_fn h_fn : ℚ → Except Unit ℚ) :
    (Sym.conv_tau_grid x_fn h_fn).length = 200 := by
  unfold Sym.conv_tau_grid
  exact linspace_length ..

/-! ## C6: the unit-step origin convention -/

/-- C6.  The numeric unit step of `convolution.py` satisfies the spec's
convention exactly (`u(0) = 1`, `0` for negative, `1` for positive
arguments), but the symbolic parse path of `symbolic.py` maps the `u`
primitive to SymPy's `Heaviside`, whose value at the origin is `1/2`,
not `1` — the claim fails at the `u -> Heaviside` mapping. -/
theorem unit_step_convention_and_heaviside_mismatch :
    Conv.u 0 = 1 ∧
    (∀ t : ℚ, t < 0 → Conv.u t = 0) ∧
    (∀ t : ℚ, 0 < t → Conv.u t = 1) ∧
    Sym.Heaviside 0 = 1/2 ∧
    Sym.Heaviside 0 ≠ 1 := by
  refine ⟨rfl, ?_, ?_, rfl, by norm_num [Sym.Heaviside]⟩
  · intro t ht
    simp [Conv.u, ht.ne, not_lt.mpr ht.le]
  · intro t ht
    simp [Conv.u, ht.ne', ht]

/-- Witness for C6 at concrete inputs. -/
theorem unit_step_convention_and_heaviside_mismatch_witness :
    Conv.u (-3) = 0 ∧ Conv.u 2 = 1 :=
  ⟨unit_step_convention_and_heaviside_mismatch.2.1 (-3) (by norm_num),
   unit_step_convention_and_heaviside_mismatch.2.2.1 2 (by norm_num)⟩

/-! ## C9: scoped restoration of the impulse width -/

/-- C9.  `_estimate_support_of` restores the ambient `DELTA_WIDTH` on
every exit path: whatever the scanned callable does — return values or
raise — the final width equals the width active on entry. -/
theorem estimate_support_of_restores_width
    (fn : Option ℚ → List ℚ → Except Unit (List ℚ)) (w0 : Option ℚ)
    (lo hi : ℚ) (N : ℕ) (tol temp_delta : ℚ) :
    (Conv.estimate_support_of fn w0 lo hi N tol temp_delta).2 = w0 := by
  unfold Conv.estimate_support_of
  dsimp only
  split
  · rfl
  · split <;> rfl

/-! ## C10: the API support estimators swallow evaluation errors -/

/-- C10.  If the scanned callable raises anywhere on the scan grid, the
API estimators `estimate_support` and `estimate_support_discrete` return
`None`; an identically-zero (below-tolerance) signal also returns
`None`, so a crash is indistinguishable from an empty support. -/
theorem estimate_support_api_swallows_errors :
    (∀ (fn : ℚ → Except Unit ℚ) (lo hi : ℚ) (N : ℕ) (tol : ℚ),
        (∃ q ∈ linspace lo hi N, fn q = .error ()) →
        Sym.estimate_support fn lo hi N tol = none) ∧
    (∀ (fn : ℤ → Except Unit ℚ) (lo hi : ℤ),
        (∃ q ∈ arangeZ lo (hi + 1), fn q = .error ()) →
        Sym.estimate_support_discrete fn lo hi = none) ∧
    (∀ (lo hi : ℚ) (N : ℕ) (tol : ℚ), 0 ≤ tol →
        Sym.estimate_support (fun _ => .ok 0) lo hi N tol = none) := by
  refine ⟨?_, ?_, ?_⟩
  · intro fn lo hi N tol ⟨q, hq, he⟩
    unfold Sym.estimate_support
    dsimp only
    rcases hm : evalVec fn (linspace lo hi N) with e | vals
    · rfl
    · exfalso
      obtain ⟨y, hy⟩ := evalVec_ok_forall fn hm q hq
      rw [he] at hy
      exact absurd hy (by simp)
  · intro fn lo hi ⟨q, hq, he⟩
    unfold Sym.estimate_support_discrete
    dsimp only
    rcases hm : evalVec fn (arangeZ lo (hi + 1)) with e | vals
    · rfl
    · exfalso
      obtain ⟨y, hy⟩ := evalVec_ok_forall fn hm q hq
      rw [he] at hy
      exact absurd hy (by simp)
  · intro lo hi N tol htol
    unfold Sym.estimate_support
    dsimp only
    rw [evalVec_const_ok]
    dsimp only
    rw [whereGt_map_const_zero tol htol]
    rfl

/-- Witness for C10: a callable that raises at the head of a two-point
scan grid, and the identically-zero signal, both produce `None`. -/
theorem estimate_support_api_swallows_errors_witness :
    Sym.estimate_support (fun _ => .error ()) 0 1 2 1 = none ∧
    Sym.estimate_support_discrete (fun _ => .error ()) 0 1 = none ∧
    Sym.estimate_support (fun _ => .ok 0) 0 1 2 1 = none :=
  ⟨estimate_support_api_swallows_errors.1 (fun _ => .error ()) 0 1 2 1
      ⟨0, by rw [linspace_two]; exact List.mem_cons_self 0 [1], rfl⟩,
   estimate_support_api_swallows_errors.2.1 (fun _ => .error ()) 0 1
      ⟨0, by decide, rfl⟩,
   estimate_support_api_swallows_errors.2.2 0 1 2 1 (by norm_num)⟩

/-! ## C5: the range planner -/

theorem pad_floor_eq (s : ℚ) :
    max (1/2) (12/100 * max (1/1000000000) s) = max (1/2) (12/100 * s) := by
  rcases le_total s (1/1000000000) with h | h
  · have h1 : (12:ℚ)/100 * (1/1000000000) ≤ 1/2 := by norm_num
    have h2 : (12:ℚ)/100 * s ≤ 1/2 := by nlinarith
    rw [max_eq_left h, max_eq_left h1, max_eq_left h2]
  · rw [max_eq_right h]

/-- C5 (amended).  The CLI range planner `pick_ranges_auto` implements
the claim exactly: for two present supports the τ-window is their union
and the t-window their Minkowski sum, each padded on both ends by
`max(0.5, 0.12 × span)`, and two absent supports yield the fixed
fallback `(-2, 6)` for both axes.  (The API convolution path plans its
ranges inline with a flat 2-unit pad instead — see the counterexample.) -/
theorem pick_ranges_plan_union_minkowski :
    (∀ a1 b1 a2 b2 : ℚ,
      Conv.pick_ranges_plan (some (a1, b1)) (some (a2, b2)) =
        (a1 + a2 - max (1/2) (12/100 * ((b1 + b2) - (a1 + a2))),
         b1 + b2 + max (1/2) (12/100 * ((b1 + b2) - (a1 + a2))),
         min a1 a2 - max (1/2) (12/100 * (max b1 b2 - min a1 a2)),
         max b1 b2 + max (1/2) (12/100 * (max b1 b2 - min a1 a2)))) ∧
    Conv.pick_ranges_plan none none = (-2, 6, -2, 6) := by
  constructor
  · intro a1 b1 a2 b2
    unfold Conv.pick_ranges_plan Conv.expand
    dsimp only [Option.getD]
    rw [pad_floor_eq, pad_floor_eq]
  · rfl

/-- C5 counterexample.  The inline range planning of
`compute_convolution` (the API path the claim also cites) does not obey
the stated rule: with both supports `None` it falls back to `(-2, 2)`
per signal and pads by a flat `2`, producing the t-window `(-6, 6)` and
the τ-window `(-4, 4)` instead of the claimed `[-2, 6]` for both axes. -/
theorem conv_api_ranges_flat_pad_counterexample :
    Sym.conv_ranges_cont none none = (-6, 6, -4, 4) ∧
    Sym.conv_ranges_cont none none ≠ (-2, 6, -2, 6) := by
  constructor
  · decide
  · decide

/-! ## C8: the implicit-multiplication rewriter -/

/-- C8 counterexample.  `preprocess_expr` is not idempotent: the input
string consisting of `t2`, a space and `t` rewrites to a string that a
second application rewrites again (the first pass turns `t2` into `t*2`,
which un-blocks the signed-number lookbehind for the trailing `t` on the
second pass). -/
theorem preprocess_expr_not_idempotent :
    Pre.preprocess_expr ("t2 t") = .ok ("t*2 t") ∧
    Pre.preprocess_expr ("t*2 t") = .ok ("t*2* t") ∧
    (("t*2 t" : String) ≠ "t*2* t") :=
  ⟨rfl, rfl, by decide⟩

/-- C8 (amended).  The rewriter leaves `t+2` and `t-2` unchanged (the
sign breaks the adjacency patterns), and it is idempotent on the
representative §4.1 grammar forms collected in `sampleExprs`; full
idempotence on arbitrary strings fails (see the counterexample). -/
theorem preprocess_expr_regression_and_sample_idempotence :
    Pre.preprocess_expr ("t+2") = .ok ("t+2") ∧
    Pre.preprocess_expr ("t-2") = .ok ("t-2") ∧
    Pre.sampleExprs.all Pre.idemCheck = true :=
  ⟨rfl, rfl, rfl⟩

/-! ## C1: error handling of the convolution sweep -/

/-- C1 (amended).  `compute_convolution` wraps its whole body —
construction and sweep — in a single broad handler that converts any
failure into a `None` return: a construction (parse) failure does not
propagate to the caller but becomes `None` (continuous and discrete
branches alike), and an evaluation failure anywhere on the τ-grid aborts
the whole sweep with `None` instead of zeroing the failed sample and
returning a complete result. -/
theorem compute_convolution_broad_catch :
    (∀ (e : Unit) (ph : Except Unit (ℚ → Except Unit ℚ)),
        Sym.compute_convolution_cont (.error e) ph = none) ∧
    (∀ (e : Unit) (ph : Except Unit (ℤ → Except Unit ℚ)),
        Sym.compute_convolution_disc (.error e) ph = none) ∧
    (∀ x_fn h_fn : ℚ → Except Unit ℚ,
        evalVec x_fn (Sym.conv_tau_grid x_fn h_fn) = .error () →
        Sym.compute_convolution_cont (.ok x_fn) (.ok h_fn) = none) := by
  refine ⟨fun e ph => rfl, fun e ph => rfl, ?_⟩
  intro x_fn h_fn h
  have hp : Sym.conv_cont_pipeline x_fn h_fn = .error () := by
    unfold Sym.conv_cont_pipeline
    dsimp only
    rw [h]
    rfl
  unfold Sym.compute_convolution_cont
  dsimp only
  rw [hp]

set_option maxRecDepth 1000000 in
set_option maxHeartbeats 4000000 in
/-- Witness for C1: a failed construction returns `None` on both
branches, and a signal whose evaluation fails on the τ-grid returns
`None` rather than a zero-padded result. -/
theorem compute_convolution_broad_catch_witness :
    Sym.compute_convolution_cont (.error ()) (.ok (fun _ => .ok 0)) = none ∧
    Sym.compute_convolution_disc (.error ()) (.ok (fun _ => .ok 0)) = none ∧
    Sym.compute_convolution_cont (.ok (fun _ => .error ())) (.ok (fun _ => .ok 0)) = none :=
  ⟨compute_convolution_broad_catch.1 () _,
   compute_convolution_broad_catch.2.1 () _,
   compute_convolution_broad_catch.2.2 _ _
     (evalVec_const_error _ (fun hnil => by
       have hlen := conv_tau_grid_length (fun _ => .error ()) (fun _ => .ok 0)
       rw [hnil] at hlen
       exact absurd hlen (by norm_num)))⟩

set_option maxRecDepth 1000000 in
set_option maxHeartbeats 8000000 in
/-- C1 counterexample.  `cex_x` fails at exactly one point of the
200-point τ-grid that `compute_convolution` builds for it (the grid
head `-4`), and `cex_h` never fails; the claim promises a complete
result with that single sample zeroed, but the function returns `None`. -/
theorem compute_convolution_single_point_abort :
    Sym.compute_convolution_cont (.ok Sym.cex_x) (.ok Sym.cex_h) = none ∧
    ((Sym.conv_tau_grid Sym.cex_x Sym.cex_h).filter (Sym.evalFails Sym.cex_x)).length = 1 := by
  decide

/-! ## C7: unit area of the impulse approximation -/

theorem arithGrid_zero (a hq : ℚ) : arithGrid a hq 0 = [] := rfl

theorem arithGrid_succ (a hq : ℚ) (n : ℕ) :
    arithGrid a hq (n + 1) = a :: arithGrid (a + hq) hq n := by
  unfold arithGrid
  rw [List.range_succ_eq_map]
  simp only [List.map_cons, List.map_map, Nat.cast_zero]
  congr 1
  · ring
  · apply List.map_congr_left
    intro i _
    simp only [Function.comp_apply]
    push_cast
    ring

theorem arithGrid_getD (a hq : ℚ) (n i : ℕ) (hi : i < n) :
    (arithGrid a hq n).getD i 0 = a + i * hq := by
  unfold arithGrid
  rw [List.getD_eq_getElem?_getD, List.getElem?_map, List.getElem?_range hi]
  rfl

theorem trapz_single (y x : ℚ) : trapz [y] [x] = 0 := rfl

theorem trapz_cons (y1 y2 x1 x2 : ℚ) (ys xs : List ℚ) :
    trapz (y1 :: y2 :: ys) (x1 :: x2 :: xs) =
      (x2 - x1) * (y1 + y2) / 2 + trapz (y2 :: ys) (x2 :: xs) := rfl

theorem trapz_arithGrid (hq : ℚ) (f : ℚ → ℚ) :
    ∀ (n : ℕ) (a : ℚ),
      trapz ((arithGrid a hq n).map f) (arithGrid a hq n) =
        ∑ i in Finset.range (n - 1),
          hq * (f (a + i * hq) + f (a + (i + 1) * hq)) / 2 := by
  intro n
  induction n with
  | zero =>
      intro a
      simp [arithGrid_zero, trapz]
  | succ m ih =>
      intro a
      cases m with
      | zero =>
          simp [arithGrid_succ, arithGrid_zero, trapz_single]
      | succ k =>
          rw [arithGrid_succ a, arithGrid_succ (a + hq), List.map_cons, List.map_cons,
            trapz_cons, ← List.map_cons, ← arithGrid_succ (a + hq), ih (a + hq)]
          rw [show k + 1 + 1 - 1 = k + 1 from rfl, show k + 1 - 1 = k from rfl]
          rw [Finset.sum_range_succ']
          have hhead : (a + hq - a) * (f a + f (a + hq)) / 2
              = hq * (f (a + ((0:ℕ) : ℚ) * hq) + f (a + (((0:ℕ) : ℚ) + 1) * hq)) / 2 := by
        
            push_cast
            rw [show a + 0 * hq = a by ring, show a + (0 + 1) * hq = a + hq by ring,
              show a + hq - a = hq by ring]
          have hsum : ∑ i in Finset.range k,
                hq * (f (a + hq + i * hq) + f (a + hq + (i + 1) * hq)) / 2
              = ∑ i in Finset.range k,
                hq * (f (a + (((i:ℚ) + 1)) * hq) + f (a + ((i:ℚ) + 1 + 1) * hq)) / 2 := by
            apply Finset.sum_congr rfl
            intro i _
            rw [show a + hq + (i:ℚ) * hq = a + ((i:ℚ) + 1) * hq by ring,
              show a + hq + ((i:ℚ) + 1) * hq = a + ((i:ℚ) + 1 + 1) * hq by ring]
          rw [hhead, hsum]
          rw [add_comm]
          congr 1
          apply Finset.sum_congr rfl
          intro i _
          push_cast
          ring_nf

theorem sum_spike (hq : ℚ) (hh : hq ≠ 0) (n k : ℕ) (hk0 : 0 < k) (hkn : k + 1 < n)
    (v : ℕ → ℚ) (hvk : v k = 1 / hq) (hv0 : ∀ i, i < n → i ≠ k → v i = 0) :
    ∑ i in Finset.range (n - 1), hq * (v i + v (i + 1)) / 2 = 1 := by
  have hsub : ({k - 1, k} : Finset ℕ) ⊆ Finset.range (n - 1) := by
    intro x hx
    simp only [Finset.mem_insert, Finset.mem_singleton] at hx
    rcases hx with rfl | rfl <;> (apply Finset.mem_range.mpr; omega)
  rw [← Finset.sum_subset hsub]
  · rw [Finset.sum_pair (by omega : k - 1 ≠ k)]
    have h1 : v (k - 1) = 0 := hv0 (k - 1) (by omega) (by omega)
    have h2 : v (k - 1 + 1) = v k := by
      congr 1
      omega
    have h3 : v (k + 1) = 0 := hv0 (k + 1) (by omega) (by omega)
    rw [h1, h2, hvk, h3]
    field_simp
  · intro x hxr hxn
    simp only [Finset.mem_insert, Finset.mem_singleton, not_or] at hxn
    obtain ⟨hx1, hx2⟩ := hxn
    have hxlt := Finset.mem_range.mp hxr
    have hv1 : v x = 0 := hv0 x (by omega) hx2
    have hv2 : v (x + 1) = 0 := hv0 (x + 1) (by omega) (by omega)
    rw [hv1, hv2]
    ring

/-- C7 (amended).  On an evenly spaced τ-grid with spacing `h` in
`[1e-4, 1]`, after `configure_delta_from_grid` sets the impulse width to
`h`, the rectangle approximation integrates to exactly `1` under
`np.trapz` on that same grid, **provided** exactly one grid point lies
inside the pulse `|t| ≤ h/2` and that point is interior to the grid.
(Without that proviso the claim is false: a grid hitting both pulse
edges integrates to `2` — see the counterexample.) -/
theorem impulse_unit_area_on_own_grid (a hq : ℚ) (n k : ℕ)
    (hlo : 1/10000 ≤ hq) (hhi : hq ≤ 1)
    (hk0 : 0 < k) (hkn : k + 1 < n)
    (hin : |a + k * hq| ≤ 1/2 * hq)
    (hout : ∀ i : ℕ, i < n → i ≠ k → ¬(|a + i * hq| ≤ 1/2 * hq)) :
    Conv.configure_delta_from_grid (arithGrid a hq n) = hq ∧
    trapz ((arithGrid a hq n).map
        (Conv.dValue (Conv.configure_delta_from_grid (arithGrid a hq n))))
      (arithGrid a hq n) = 1 := by
  have hpos : 0 < hq := lt_of_lt_of_le (by norm_num) hlo
  have hw : Conv.configure_delta_from_grid (arithGrid a hq n) = hq := by
    unfold Conv.configure_delta_from_grid
    rw [arithGrid_getD a hq n 1 (by omega), arithGrid_getD a hq n 0 (by omega)]
    push_cast
    rw [show a + 1 * hq - (a + 0 * hq) = hq by ring]
    exact abs_of_pos hpos
  refine ⟨hw, ?_⟩
  rw [hw, trapz_arithGrid]
  have hc : (∑ i in Finset.range (n - 1),
        hq * (Conv.dValue hq (a + i * hq) + Conv.dValue hq (a + ((i : ℚ) + 1) * hq)) / 2)
      = ∑ i in Finset.range (n - 1),
        hq * (Conv.dValue hq (a + i * hq) + Conv.dValue hq (a + (((i + 1 : ℕ)) : ℚ) * hq)) / 2 := by
    apply Finset.sum_congr rfl
    intro i _
    rw [show a + ((i : ℚ) + 1) * hq = a + (((i + 1 : ℕ)) : ℚ) * hq by push_cast; ring]
  rw [hc]
  exact sum_spike hq (ne_of_gt hpos) n k hk0 hkn
    (fun i => Conv.dValue hq (a + (i : ℚ) * hq))
    (by
      unfold Conv.dValue
      dsimp only
      rw [if_pos hin])
    (by
      intro i hi hik
      unfold Conv.dValue
      dsimp only
      rw [if_neg (hout i hi hik)]
      exact zero_div hq)

/-- Witness for C7: the grid `-1.7, -0.7, 0.3, 1.3` with spacing `1` has
exactly one interior point (`0.3`) inside the pulse, and the integral is
exactly `1`. -/
theorem impulse_unit_area_on_own_grid_witness :
    trapz ((arithGrid (-17/10) 1 4).map
        (Conv.dValue (Conv.configure_delta_from_grid (arithGrid (-17/10) 1 4))))
      (arithGrid (-17/10) 1 4) = 1 :=
  (impulse_unit_area_on_own_grid (-17/10) 1 4 2 (by norm_num) (by norm_num)
    (by norm_num) (by norm_num) (by decide) (by decide)).2

/-- C7 counterexample.  The evenly spaced grid `-1.5, -0.5, 0.5, 1.5`
has spacing `1` (inside the claimed range `[1e-4, 1]`), but both `-0.5`
and `0.5` lie inside the pulse `|t| ≤ 1/2`, and the trapezoidal integral
of the configured impulse over that grid is `2`, not `1`. -/
theorem impulse_trapz_two_in_pulse_counterexample :
    Conv.configure_delta_from_grid (arithGrid (-3/2) 1 4) = 1 ∧
    trapz ((arithGrid (-3/2) 1 4).map (Conv.dValue 1)) (arithGrid (-3/2) 1 4) = 2 ∧
    ((2:ℚ) ≠ 1) :=
  ⟨by decide, by decide, by norm_num⟩

/-! ## C2, C3, C4: the transfer-function surface generator -/

theorem getD_range_map {β : Type} (f : ℕ → β) (n i : ℕ) (d : β) (hi : i < n) :
    ((List.range n).map f).getD i d = f i := by
  rw [List.getD_eq_getElem?_getD, List.getElem?_map, List.getElem?_range hi]
  rfl

theorem rocXVals_length (dom : Roc.Domain) (pr : ℚ) (points : ℕ) :
    (Roc.rocXVals dom pr points).length = points := by
  unfold Roc.rocXVals
  cases dom <;> exact linspace_length ..

theorem rocYVals_length (dom : Roc.Domain) (piQ pr : ℚ) (points : ℕ) :
    (Roc.rocYVals dom piQ pr points).length = points := by
  unfold Roc.rocYVals
  cases dom <;> exact linspace_length ..

theorem surfEntry_eq (absF : Roc.Cq → ℚ) (cosF sinF : ℚ → ℚ) (piQ : ℚ)
    (poles zeros : List Roc.Cq) (gain : ℚ) (dom : Roc.Domain) (roc : Roc.RocType)
    (points : ℕ) (pr : ℚ) (i j : ℕ) (hi : i < points) (hj : j < points) :
    Roc.surfEntry absF cosF sinF piQ poles zeros gain dom roc points pr i j =
      (if Roc.rocMask absF dom roc poles ((Roc.rocXVals dom pr points).getD j 0) then
        some (Roc.rocHeight absF dom cosF sinF poles zeros gain
          ((Roc.rocXVals dom pr points).getD j 0)
          ((Roc.rocYVals dom piQ pr points).getD i 0))
      else none) := by
  unfold Roc.surfEntry Roc.calculate_roc_surface
  dsimp only
  rw [getD_range_map _ _ i _ (by rw [rocYVals_length]; exact hi)]
  rw [getD_range_map _ _ j _ (by rw [rocXVals_length]; exact hj)]

/-- C2 (amended).  Every defined cell of the surface holds
`min(|H|, 10)` — the magnitude clamped at the constant `MAX_HEIGHT = 10`
— whatever the pole list is; there is no percentile-dependent bound, and
the clamp also applies when the pole list is empty (see the
counterexample for a concrete raw value above the cap). -/
theorem roc_surface_constant_clamp (absF : Roc.Cq → ℚ) (cosF sinF : ℚ → ℚ)
    (piQ : ℚ) (poles zeros : List Roc.Cq) (gain : ℚ) (dom : Roc.Domain)
    (roc : Roc.RocType) (points : ℕ) (pr : ℚ) (i j : ℕ)
    (hi : i < points) (hj : j < points) :
    (Roc.surfEntry absF cosF sinF piQ poles zeros gain dom roc points pr i j = none ∨
      Roc.surfEntry absF cosF sinF piQ poles zeros gain dom roc points pr i j =
        some (min (absF (Roc.rocH dom cosF sinF poles zeros gain
          ((Roc.rocXVals dom pr points).getD j 0)
          ((Roc.rocYVals dom piQ pr points).getD i 0))) 10)) ∧
    (∀ x y : ℚ, Roc.rocHeight absF dom cosF sinF poles zeros gain x y ≤ 10) := by
  constructor
  · rw [surfEntry_eq absF cosF sinF piQ poles zeros gain dom roc points pr i j hi hj]
    split
    · right
      rfl
    · left
      rfl
  · intro x y
    exact min_le_right _ _

/-- Witness for C2 at a concrete one-cell causal Laplace surface. -/
theorem roc_surface_constant_clamp_witness :
    (Roc.surfEntry (fun _ => 0) (fun _ => 0) (fun _ => 0) 0 [] [] 1
        Roc.Domain.laplace Roc.RocType.causal 1 1 0 0 = none ∨
      Roc.surfEntry (fun _ => 0) (fun _ => 0) (fun _ => 0) 0 [] [] 1
        Roc.Domain.laplace Roc.RocType.causal 1 1 0 0 =
        some (min ((fun (_ : Roc.Cq) => (0:ℚ)) (Roc.rocH Roc.Domain.laplace
          (fun _ => 0) (fun _ => 0) [] [] 1
          ((Roc.rocXVals Roc.Domain.laplace 1 1).getD 0 0)
          ((Roc.rocYVals Roc.Domain.laplace 0 1 1).getD 0 0))) 10)) ∧
    Roc.rocHeight (fun _ => 0) Roc.Domain.laplace (fun _ => 0) (fun _ => 0)
      [] [] 1 5 7 ≤ 10 :=
  ⟨(roc_surface_constant_clamp (fun _ => 0) (fun _ => 0) (fun _ => 0) 0 [] [] 1
      Roc.Domain.laplace Roc.RocType.causal 1 1 0 0 (by norm_num) (by norm_num)).1,
   (roc_surface_constant_clamp (fun _ => 0) (fun _ => 0) (fun _ => 0) 0 [] [] 1
      Roc.Domain.laplace Roc.RocType.causal 1 1 0 0 (by norm_num) (by norm_num)).2 5 7⟩

/-- C2 counterexample.  An all-zero system (no poles): the claim says no
clamp is applied, but with `gain = 20` the raw magnitude of every cell is
`20/(1 + 1e-10) ≈ 20`, above the cap, and the returned cell value is the
clamped `10`.  `absReal` is the exact complex magnitude on the real axis,
where this surface's `H` values live. -/
theorem roc_surface_clamps_without_poles_counterexample :
    Roc.surfEntry Roc.absReal (fun _ => 0) (fun _ => 0) 0 [] [] 20
      Roc.Domain.laplace Roc.RocType.causal 3 10 0 0 = some 10 ∧
    (Roc.rocH Roc.Domain.laplace (fun _ => 0) (fun _ => 0) [] [] 20 (-10) (-10)).im = 0 ∧
    Roc.absReal (Roc.rocH Roc.Domain.laplace (fun _ => 0) (fun _ => 0) [] [] 20
      (-10) (-10)) = 200000000000/10000000001 ∧
    ((10:ℚ) < 200000000000/10000000001) :=
  ⟨by decide, by decide, by decide, by norm_num⟩

/-- C3 (amended).  The per-axis grid point count of the surface equals
the `points` argument (default `50` at the call sites), independent of
the requested `plot_range`; the spec's adaptive `clamp(range*2, 50, 200)`
does not exist in the generator. -/
theorem roc_surface_points_is_parameter (absF : Roc.Cq → ℚ)
    (cosF sinF : ℚ → ℚ) (piQ : ℚ) (poles zeros : List Roc.Cq) (gain : ℚ)
    (dom : Roc.Domain) (roc : Roc.RocType) (points : ℕ) (pr : ℚ) :
    (Roc.calculate_roc_surface absF cosF sinF piQ poles zeros gain dom roc
        points pr).x.length = points ∧
    (Roc.calculate_roc_surface absF cosF sinF piQ poles zeros gain dom roc
        points pr).y.length = points ∧
    (Roc.calculate_roc_surface absF cosF sinF piQ poles zeros gain dom roc
        points pr).z.length = points ∧
    (∀ row ∈ (Roc.calculate_roc_surface absF cosF sinF piQ poles zeros gain
        dom roc points pr).z, row.length = points) := by
  unfold Roc.calculate_roc_surface
  dsimp only
  refine ⟨rocXVals_length .., rocYVals_length .., ?_, ?_⟩
  · rw [List.length_map, List.length_range]
    exact rocYVals_length ..
  · intro row hrow
    rw [List.mem_map] at hrow
    obtain ⟨i, _, rfl⟩ := hrow
    rw [List.length_map, List.length_range]
    exact rocXVals_length ..

/-- Witness for C3: a 3-point request yields 3 columns and a first row
of length 3. -/
theorem roc_surface_points_is_parameter_witness :
    (Roc.calculate_roc_surface (fun _ => 0) (fun _ => 0) (fun _ => 0) 0 [] [] 1
        Roc.Domain.laplace Roc.RocType.causal 3 10).x.length = 3 ∧
    ((Roc.calculate_roc_surface (fun _ => 0) (fun _ => 0) (fun _ => 0) 0 [] [] 1
        Roc.Domain.laplace Roc.RocType.causal 3 10).z.getD 0 []).length = 3 :=
  ⟨(roc_surface_points_is_parameter (fun _ => 0) (fun _ => 0) (fun _ => 0) 0
      [] [] 1 Roc.Domain.laplace Roc.RocType.causal 3 10).1,
   (roc_surface_points_is_parameter (fun _ => 0) (fun _ => 0) (fun _ => 0) 0
      [] [] 1 Roc.Domain.laplace Roc.RocType.causal 3 10).2.2.2 _ (by decide)⟩

/-- C3 counterexample.  A request with half-range `100` and the default
resolution produces `50` points per axis, not the `200` the spec formula
`clamp(range*2, 50, 200)` prescribes. -/
theorem roc_surface_range100_counterexample :
    (Roc.calculate_roc_surface (fun _ => 0) (fun _ => 0) (fun _ => 0) 0 [] [] 1
        Roc.Domain.laplace Roc.RocType.causal 50 100).x.length = 50 ∧
    Roc.spec_adaptive_points 100 = 200 ∧
    (((Roc.calculate_roc_surface (fun _ => 0) (fun _ => 0) (fun _ => 0) 0 [] [] 1
        Roc.Domain.laplace Roc.RocType.causal 50 100).x.length : ℚ) ≠
      Roc.spec_adaptive_points 100) :=
  ⟨by decide, by decide, by decide⟩

theorem rocMask_nil (absF : Roc.Cq → ℚ) (dom : Roc.Domain) (roc : Roc.RocType)
    (xv : ℚ) : Roc.rocMask absF dom roc [] xv = true := by
  unfold Roc.rocMask
  cases dom <;> rfl

theorem surfEntry_no_poles (absF : Roc.Cq → ℚ) (cosF sinF : ℚ → ℚ) (piQ : ℚ)
    (zeros : List Roc.Cq) (gain : ℚ) (dom : Roc.Domain) (roc : Roc.RocType)
    (points : ℕ) (pr : ℚ) (i j : ℕ) (hi : i < points) (hj : j < points) :
    Roc.surfEntry absF cosF sinF piQ [] zeros gain dom roc points pr i j =
      some (Roc.rocHeight absF dom cosF sinF [] zeros gain
        ((Roc.rocXVals dom pr points).getD j 0)
        ((Roc.rocYVals dom piQ pr points).getD i 0)) := by
  rw [surfEntry_eq absF cosF sinF piQ [] zeros gain dom roc points pr i j hi hj]
  rw [if_pos (rocMask_nil absF dom roc _)]

theorem surfEntry_causal_laplace (absF : Roc.Cq → ℚ) (cosF sinF : ℚ → ℚ)
    (piQ : ℚ) (p : Roc.Cq) (ps zeros : List Roc.Cq) (gain : ℚ)
    (points : ℕ) (pr : ℚ) (i j : ℕ) (hi : i < points) (hj : j < points) :
    Roc.surfEntry absF cosF sinF piQ (p :: ps) zeros gain Roc.Domain.laplace
        Roc.RocType.causal points pr i j =
      (if Roc.listMax ((p :: ps).map Roc.Cq.re) <
          (Roc.rocXVals Roc.Domain.laplace pr points).getD j 0
       then some (Roc.rocHeight absF Roc.Domain.laplace cosF sinF (p :: ps)
          zeros gain ((Roc.rocXVals Roc.Domain.laplace pr points).getD j 0)
          ((Roc.rocYVals Roc.Domain.laplace piQ pr points).getD i 0))
       else none) := by
  rw [surfEntry_eq absF cosF sinF piQ (p :: ps) zeros gain _ _ points pr i j hi hj]
  rw [show Roc.rocMask absF Roc.Domain.laplace Roc.RocType.causal (p :: ps)
      ((Roc.rocXVals Roc.Domain.laplace pr points).getD j 0) =
    decide (Roc.listMax ((p :: ps).map Roc.Cq.re) <
      (Roc.rocXVals Roc.Domain.laplace pr points).getD j 0) from rfl]
  by_cases hc : Roc.listMax ((p :: ps).map Roc.Cq.re) <
      (Roc.rocXVals Roc.Domain.laplace pr points).getD j 0
  · rw [if_pos (decide_eq_true hc), if_pos hc]
  · rw [if_neg (by simpa using hc), if_neg hc]

theorem surfEntry_anticausal_laplace (absF : Roc.Cq → ℚ) (cosF sinF : ℚ → ℚ)
    (piQ : ℚ) (p : Roc.Cq) (ps zeros : List Roc.Cq) (gain : ℚ)
    (points : ℕ) (pr : ℚ) (i j : ℕ) (hi : i < points) (hj : j < points) :
    Roc.surfEntry absF cosF sinF piQ (p :: ps) zeros gain Roc.Domain.laplace
        Roc.RocType.anticausal points pr i j =
      (if (Roc.rocXVals Roc.Domain.laplace pr points).getD j 0 <
          Roc.listMin ((p :: ps).map Roc.Cq.re)
       then some (Roc.rocHeight absF Roc.Domain.laplace cosF sinF (p :: ps)
          zeros gain ((Roc.rocXVals Roc.Domain.laplace pr points).getD j 0)
          ((Roc.rocYVals Roc.Domain.laplace piQ pr points).getD i 0))
       else none) := by
  rw [surfEntry_eq absF cosF sinF piQ (p :: ps) zeros gain _ _ points pr i j hi hj]
  rw [show Roc.rocMask absF Roc.Domain.laplace Roc.RocType.anticausal (p :: ps)
      ((Roc.rocXVals Roc.Domain.laplace pr points).getD j 0) =
    decide ((Roc.rocXVals Roc.Domain.laplace pr points).getD j 0 <
      Roc.listMin ((p :: ps).map Roc.Cq.re)) from rfl]
  by_cases hc : (Roc.rocXVals Roc.Domain.laplace pr points).getD j 0 <
      Roc.listMin ((p :: ps).map Roc.Cq.re)
  · rw [if_pos (decide_eq_true hc), if_pos hc]
  · rw [if_neg (by simpa using hc), if_neg hc]

theorem surfEntry_causal_z (absF : Roc.Cq → ℚ) (cosF sinF : ℚ → ℚ)
    (piQ : ℚ) (p : Roc.Cq) (ps zeros : List Roc.Cq) (gain : ℚ)
    (points : ℕ) (pr : ℚ) (i j : ℕ) (hi : i < points) (hj : j < points) :
    Roc.surfEntry absF cosF sinF piQ (p :: ps) zeros gain Roc.Domain.zdom
        Roc.RocType.causal points pr i j =
      (if Roc.listMax ((p :: ps).map absF) <
          (Roc.rocXVals Roc.Domain.zdom pr points).getD j 0
       then some (Roc.rocHeight absF Roc.Domain.zdom cosF sinF (p :: ps)
          zeros gain ((Roc.rocXVals Roc.Domain.zdom pr points).getD j 0)
          ((Roc.rocYVals Roc.Domain.zdom piQ pr points).getD i 0))
       else none) := by
  rw [surfEntry_eq absF cosF sinF piQ (p :: ps) zeros gain _ _ points pr i j hi hj]
  rw [show Roc.rocMask absF Roc.Domain.zdom Roc.RocType.causal (p :: ps)
      ((Roc.rocXVals Roc.Domain.zdom pr points).getD j 0) =
    decide (Roc.listMax ((p :: ps).map absF) <
      (Roc.rocXVals Roc.Domain.zdom pr points).getD j 0) from rfl]
  by_cases hc : Roc.listMax ((p :: ps).map absF) <
      (Roc.rocXVals Roc.Domain.zdom pr points).getD j 0
  · rw [if_pos (decide_eq_true hc), if_pos hc]
  · rw [if_neg (by simpa using hc), if_neg hc]

theorem surfEntry_anticausal_z (absF : Roc.Cq → ℚ) (cosF sinF : ℚ → ℚ)
    (piQ : ℚ) (p : Roc.Cq) (ps zeros : List Roc.Cq) (gain : ℚ)
    (points : ℕ) (pr : ℚ) (i j : ℕ) (hi : i < points) (hj : j < points) :
    Roc.surfEntry absF cosF sinF piQ (p :: ps) zeros gain Roc.Domain.zdom
        Roc.RocType.anticausal points pr i j =
      (if (Roc.rocXVals Roc.Domain.zdom pr points).getD j 0 <
          Roc.listMin ((p :: ps).map absF)
       then some (Roc.rocHeight absF Roc.Domain.zdom cosF sinF (p :: ps)
          zeros gain ((Roc.rocXVals Roc.Domain.zdom pr points).getD j 0)
          ((Roc.rocYVals Roc.Domain.zdom piQ pr points).getD i 0))
       else none) := by
  rw [surfEntry_eq absF cosF sinF piQ (p :: ps) zeros gain _ _ points pr i j hi hj]
  rw [show Roc.rocMask absF Roc.Domain.zdom Roc.RocType.anticausal (p :: ps)
      ((Roc.rocXVals Roc.Domain.zdom pr points).getD j 0) =
    decide ((Roc.rocXVals Roc.Domain.zdom pr points).getD j 0 <
      Roc.listMin ((p :: ps).map absF)) from rfl]
  by_cases hc : (Roc.rocXVals Roc.Domain.zdom pr points).getD j 0 <
      Roc.listMin ((p :: ps).map absF)
  · rw [if_pos (decide_eq_true hc), if_pos hc]
  · rw [if_neg (by simpa using hc), if_neg hc]

/-- C4.  Characterization of the ROC masking of
`calculate_roc_surface`: with an empty pole list every cell is kept;
with poles, a causal Laplace request keeps exactly the cells whose σ
coordinate (the real part of the mesh point `S`) exceeds the largest
pole real part, an anticausal one exactly those below the smallest; in
the z-domain the radius coordinate (which is `|S| = |r·e^{jω}|`) is
compared with the largest/smallest pole magnitude.  A masked-out cell is
the explicit `none` marker in the returned matrix — the `np.nan` values
of the mask step are rewritten to `None` before the payload is returned,
so no raw NaN token survives.  In particular, for the single real pole
`-1` with no zeros (causal, Laplace), a cell is `none` exactly when its
σ ≤ -1, and every cell with σ > -1 carries a finite rational value
(bounded by the cap 10). -/
theorem roc_surface_mask_characterization :
    (∀ (absF : Roc.Cq → ℚ) (cosF sinF : ℚ → ℚ) (piQ : ℚ)
        (zeros : List Roc.Cq) (gain : ℚ) (dom : Roc.Domain)
        (roc : Roc.RocType) (points : ℕ) (pr : ℚ) (i j : ℕ),
        i < points → j < points →
        Roc.surfEntry absF cosF sinF piQ [] zeros gain dom roc points pr i j =
          some (Roc.rocHeight absF dom cosF sinF [] zeros gain
            ((Roc.rocXVals dom pr points).getD j 0)
            ((Roc.rocYVals dom piQ pr points).getD i 0))) ∧
    (∀ (absF : Roc.Cq → ℚ) (cosF sinF : ℚ → ℚ) (piQ : ℚ) (p : Roc.Cq)
        (ps zeros : List Roc.Cq) (gain : ℚ) (points : ℕ) (pr : ℚ) (i j : ℕ),
        i < points → j < points →
        Roc.surfEntry absF cosF sinF piQ (p :: ps) zeros gain
            Roc.Domain.laplace Roc.RocType.causal points pr i j =
          (if Roc.listMax ((p :: ps).map Roc.Cq.re) <
              (Roc.rocXVals Roc.Domain.laplace pr points).getD j 0
           then some (Roc.rocHeight absF Roc.Domain.laplace cosF sinF (p :: ps)
              zeros gain ((Roc.rocXVals Roc.Domain.laplace pr points).getD j 0)
              ((Roc.rocYVals Roc.Domain.laplace piQ pr points).getD i 0))
           else none)) ∧
    (∀ (absF : Roc.Cq → ℚ) (cosF sinF : ℚ → ℚ) (piQ : ℚ) (p : Roc.Cq)
        (ps zeros : List Roc.Cq) (gain : ℚ) (points : ℕ) (pr : ℚ) (i j : ℕ),
        i < points → j < points →
        Roc.surfEntry absF cosF sinF piQ (p :: ps) zeros gain
            Roc.Domain.laplace Roc.RocType.anticausal points pr i j =
          (if (Roc.rocXVals Roc.Domain.laplace pr points).getD j 0 <
              Roc.listMin ((p :: ps).map Roc.Cq.re)
           then some (Roc.rocHeight absF Roc.Domain.laplace cosF sinF (p :: ps)
              zeros gain ((Roc.rocXVals Roc.Domain.laplace pr points).getD j 0)
              ((Roc.rocYVals Roc.Domain.laplace piQ pr points).getD i 0))
           else none)) ∧
    (∀ (absF : Roc.Cq → ℚ) (cosF sinF : ℚ → ℚ) (piQ : ℚ) (p : Roc.Cq)
        (ps zeros : List Roc.Cq) (gain : ℚ) (points : ℕ) (pr : ℚ) (i j : ℕ),
        i < points → j < points →
        Roc.surfEntry absF cosF sinF piQ (p :: ps) zeros gain
            Roc.Domain.zdom Roc.RocType.causal points pr i j =
          (if Roc.listMax ((p :: ps).map absF) <
              (Roc.rocXVals Roc.Domain.zdom pr points).getD j 0
           then some (Roc.rocHeight absF Roc.Domain.zdom cosF sinF (p :: ps)
              zeros gain ((Roc.rocXVals Roc.Domain.zdom pr points).getD j 0)
              ((Roc.rocYVals Roc.Domain.zdom piQ pr points).getD i 0))
           else none)) ∧
    (∀ (absF : Roc.Cq → ℚ) (cosF sinF : ℚ → ℚ) (piQ : ℚ) (p : Roc.Cq)
        (ps zeros : List Roc.Cq) (gain : ℚ) (points : ℕ) (pr : ℚ) (i j : ℕ),
        i < points → j < points →
        Roc.surfEntry absF cosF sinF piQ (p :: ps) zeros gain
            Roc.Domain.zdom Roc.RocType.anticausal points pr i j =
          (if (Roc.rocXVals Roc.Domain.zdom pr points).getD j 0 <
              Roc.listMin ((p :: ps).map absF)
           then some (Roc.rocHeight absF Roc.Domain.zdom cosF sinF (p :: ps)
              zeros gain ((Roc.rocXVals Roc.Domain.zdom pr points).getD j 0)
              ((Roc.rocYVals Roc.Domain.zdom piQ pr points).getD i 0))
           else none)) ∧
    (∀ (cosF sinF : ℚ → ℚ) (x y : ℚ),
        (Roc.rocS Roc.Domain.laplace cosF sinF x y).re = x) ∧
    (∀ (absF : Roc.Cq → ℚ) (cosF sinF : ℚ → ℚ) (piQ : ℚ) (gain : ℚ)
        (points : ℕ) (pr : ℚ) (i j : ℕ),
        i < points → j < points →
        (Roc.surfEntry absF cosF sinF piQ [Roc.Cq.mk (-1) 0] [] gain
            Roc.Domain.laplace Roc.RocType.causal points pr i j = none ↔
          (Roc.rocXVals Roc.Domain.laplace pr points).getD j 0 ≤ -1) ∧
        (-1 < (Roc.rocXVals Roc.Domain.laplace pr points).getD j 0 →
          ∃ v : ℚ, Roc.surfEntry absF cosF sinF piQ [Roc.Cq.mk (-1) 0] [] gain
              Roc.Domain.laplace Roc.RocType.causal points pr i j = some v ∧
            v ≤ 10)) := by
  refine ⟨surfEntry_no_poles, surfEntry_causal_laplace,
    surfEntry_anticausal_laplace, surfEntry_causal_z, surfEntry_anticausal_z,
    fun cosF sinF x y => rfl, ?_⟩
  intro absF cosF sinF piQ gain points pr i j hi hj
  have hmax : Roc.listMax ([Roc.Cq.mk (-1) 0].map Roc.Cq.re) = -1 := rfl
  have hent := surfEntry_causal_laplace absF cosF sinF piQ (Roc.Cq.mk (-1) 0)
    [] [] gain points pr i j hi hj
  rw [hmax] at hent
  constructor
  · rw [hent]
    by_cases hc : (-1 : ℚ) < (Roc.rocXVals Roc.Domain.laplace pr points).getD j 0
    · rw [if_pos hc]
      exact ⟨fun hsome => absurd hsome (by simp), fun hle => absurd hc (not_lt.mpr hle)⟩
    · rw [if_neg hc]
      exact ⟨fun _ => not_lt.mp hc, fun _ => rfl⟩
  · intro hc
    rw [hent, if_pos hc]
    exact ⟨_, rfl, min_le_right _ _⟩

/-- Witness for C4 on a concrete 3-point causal Laplace surface for the
pole `-1`: the no-pole part, the masked cell at σ = -10, and the defined
cell at σ = 10. -/
theorem roc_surface_mask_characterization_witness :
    Roc.surfEntry (fun _ => 0) (fun _ => 0) (fun _ => 0) 0 [] [] 1
        Roc.Domain.laplace Roc.RocType.causal 1 1 0 0 =
      some (Roc.rocHeight (fun _ => 0) Roc.Domain.laplace (fun _ => 0)
        (fun _ => 0) [] [] 1 ((Roc.rocXVals Roc.Domain.laplace 1 1).getD 0 0)
        ((Roc.rocYVals Roc.Domain.laplace 0 1 1).getD 0 0)) ∧
    (Roc.surfEntry (fun _ => 0) (fun _ => 0) (fun _ => 0) 0
        [Roc.Cq.mk (-1) 0] [] 1 Roc.Domain.laplace Roc.RocType.causal 3 10 0 0 =
      none) ∧
    (∃ v : ℚ, Roc.surfEntry (fun _ => 0) (fun _ => 0) (fun _ => 0) 0
        [Roc.Cq.mk (-1) 0] [] 1 Roc.Domain.laplace Roc.RocType.causal 3 10 0 2 =
      some v ∧ v ≤ 10) :=
  ⟨roc_surface_mask_characterization.1 (fun _ => 0) (fun _ => 0) (fun _ => 0) 0
      [] 1 Roc.Domain.laplace Roc.RocType.causal 1 1 0 0 (by norm_num) (by norm_num),
   ((roc_surface_mask_characterization.2.2.2.2.2.2 (fun _ => 0) (fun _ => 0)
      (fun _ => 0) 0 1 3 10 0 0 (by norm_num) (by norm_num)).1).mpr (by decide),
   (roc_surface_mask_characterization.2.2.2.2.2.2 (fun _ => 0) (fun _ => 0)
      (fun _ => 0) 0 1 3 10 0 2 (by norm_num) (by norm_num)).2 (by decide)⟩
